import Mathlib

/-!
# Verification of the `brickschema.validate` module

This file gives a shallow embedding of the post-processing core of
`brickschema/validate.py`: the namespace registry (`__buildNamespaceDict`),
the violation grouper and offending-triple resolver
(`__attachOffendingTriples`, `__triplesForOneViolation`,
`__violationPredicateObj`, `__queryDataGraph`), the `validate` wrapper, and
the text renderer (`ResultsSerialize`).

Modelling conventions:
* RDF terms are `Term` (IRI / blank node / literal); a graph is a list of
  triples plus its namespace-binding list (iteration order of the Python
  sets is modelled by list order).
* Python `dict`s are association lists in insertion order.
* Python exceptions are modelled by `Except PErr`; the constructors of
  `PErr` name the Python exception class that is raised
  (`assert` failures, `ValueError` from tuple unpacking, `KeyError`,
  `NameError` for an unbound local, SPARQL-parse errors for an unknown
  qname namespace in `initNs`).
* The external collaborators (pySHACL, the rdflib parser/serializer) are
  inputs: the engine result is passed to `validateCall` as a value, and the
  serializer used by `ResultsSerialize` is a function parameter.
* Offending-triple attachments `violation.add((BNode(), BSH['offendingTriple'], g))`
  use a fresh blank node each time, so the attachments of a violation are
  modelled as a list of inner graphs (`atts`); an inner graph's object slot
  is an `Option Term`, mirroring the tuple slot that holds the
  possibly-absent `sh:value` object (Python `None`).  rdflib's `Graph.add`
  asserts that every position of the added triple is a `Node`, so passing
  `None` there raises `AssertionError`: the model keeps that error path,
  and a successfully stored attachment therefore always carries `some`.
-/

/-- Python `str.split('#')`: splits on every `'#'`, keeping empty parts. -/
def splitHashAux : List Char → List Char → List String
  | [], acc => [String.mk acc.reverse]
  | c :: rest, acc =>
    if c = '#' then String.mk acc.reverse :: splitHashAux rest []
    else splitHashAux rest (c :: acc)

/-- Python `s.split('#')`. -/
def splitHash (s : String) : List String :=
  splitHashAux s.data []

/-- `startsL l p`: the char list `l` starts with `p`. -/
def startsL : List Char → List Char → Bool
  | _, [] => true
  | [], _ :: _ => false
  | c :: cs, p :: ps => c = p && startsL cs ps

/-- Python `s.endswith(p)`. -/
def endsL (s p : String) : Bool :=
  startsL s.data.reverse p.data.reverse

/-- `hasInfixAux p l`: `p` occurs as a contiguous substring of `l`
(Python `p in l`). -/
def hasInfixAux (p : List Char) : List Char → Bool
  | [] => startsL [] p
  | c :: rest => startsL (c :: rest) p || hasInfixAux p rest

/-- Python `s[:-n]` for `n ≤ len s`: drop the last `n` characters. -/
def pyDropRight (s : String) (n : Nat) : String :=
  String.mk (s.data.take (s.data.length - n))

/-- An RDF term as handled by rdflib: IRI reference, blank node, literal. -/
inductive Term where
  | iri : String → Term
  | bnode : Nat → Term
  | lit : String → Term
  deriving DecidableEq, Repr

/-- A data/results-graph triple. -/
abbrev Triple := Term × Term × Term

/-- A triple of an offending-triple inner graph: the object slot mirrors
the tuple slot `__triplesForOneViolation` fills with the possibly-absent
`sh:value` object (Python `None`).  rdflib's `Graph.add` asserts that the
object is a `Node` and raises on `None`, so only `some` objects are ever
actually stored. -/
abbrev OTriple := Term × Term × Option Term

/-- Python `str(term)`: an IRI or literal is its text, a blank node its id. -/
def Term.pyStr : Term → String
  | .iri s => s
  | .lit s => s
  | .bnode n => Nat.repr n

/-- Python truthiness of an rdflib term (all are `str` subclasses):
the empty string is falsy. -/
def Term.truthy : Term → Bool
  | .iri s => !s.isEmpty
  | .lit s => !s.isEmpty
  | .bnode _ => true

/-- A parsed rdflib graph: its namespace bindings (`g.namespaces()`)
and its triples, in iteration order. -/
structure RGraph where
  ns : List (String × String)
  triples : List Triple
  deriving DecidableEq, Repr

/-- One violation sub-graph as built by `__attachOffendingTriples`:
the namespace bindings copied in when it was created, its plain triples,
and the offending-triple attachments (each `(BNode(), BSH['offendingTriple'], g)`
with a fresh blank node is modelled by the inner graph `g` alone). -/
structure VGraph where
  bindings : List (String × String)
  triples : List Triple
  atts : List (List OTriple)
  deriving DecidableEq, Repr

/-- `self.namespaceDict`: a Python dict in insertion order. -/
abbrev NsDict := List (String × String)

/-- `self.violationDict`: violation identity node ↦ its sub-graph. -/
abbrev VDict := List (Term × VGraph)

/-- The Python exceptions the embedded code can raise. -/
inductive PErr where
  | assertionError : PErr
  | valueError : PErr
  | keyError : PErr
  | nameError : PErr
  | attributeError : PErr
  | sparqlError : PErr
  deriving DecidableEq, Repr

/-- `SH.result` (a module-level constant in `.namespaces`). -/
def SH_result : Term := .iri "http://www.w3.org/ns/shacl#result"

/-- Python `prefix in dict` / `dict[prefix]` lookup. -/
def lookupNs : NsDict → String → Option String
  | [], _ => none
  | (k, v) :: rest, p => if k = p then some v else lookupNs rest p

/-- One iteration of the loop in `__buildNamespaceDict`: assert that a
known prefix keeps its IRI, then add the binding if it is new. -/
def bindNs (d : NsDict) (p path : String) : Except PErr NsDict :=
  match lookupNs d p with
  | none => .ok (d ++ [(p, path)])
  | some existing =>
    if path = existing then .ok d else .error .assertionError

/-- `__buildNamespaceDict(g)`: fold `bindNs` over `g.namespaces()`. -/
def buildNamespaceDict (d : NsDict) : List (String × String) → Except PErr NsDict
  | [] => .ok d
  | (p, path) :: rest =>
    match bindNs d p path with
    | .ok d2 => buildNamespaceDict d2 rest
    | .error e => .error e

theorem lookupNs_append_left {d : NsDict} {p v : String} (l : NsDict)
    (h : lookupNs d p = some v) : lookupNs (d ++ l) p = some v := by
  induction d with
  | nil => simp [lookupNs] at h
  | cons kv rest ih =>
    obtain ⟨k, w⟩ := kv
    simp only [lookupNs, List.cons_append] at h ⊢
    split at h
    · simp [lookupNs, *]
    · simp only [*, if_false]
      exact ih h

theorem bindNs_preserves {d d2 : NsDict} {p v q path : String}
    (hb : bindNs d q path = .ok d2) (h : lookupNs d p = some v) :
    lookupNs d2 p = some v := by
  unfold bindNs at hb
  split at hb
  · cases hb
    exact lookupNs_append_left _ h
  · split at hb <;> cases hb
    exact h

theorem buildNamespaceDict_preserves {l : List (String × String)} :
    ∀ {d d' : NsDict} {p v : String},
    buildNamespaceDict d l = .ok d' → lookupNs d p = some v →
    lookupNs d' p = some v := by
  induction l with
  | nil =>
    intro d d' p v hb h
    cases hb
    exact h
  | cons kv rest ih =>
    intro d d' p v hb h
    obtain ⟨q, path⟩ := kv
    unfold buildNamespaceDict at hb
    cases hbind : bindNs d q path with
    | ok d2 =>
      rw [hbind] at hb
      exact ih hb (bindNs_preserves hbind h)
    | error e => rw [hbind] at hb; cases hb

/-- Python `term in violationDict` / `violationDict[term]`. -/
def lookupD : VDict → Term → Option VGraph
  | [], _ => none
  | (k, g) :: rest, t => if k = t then some g else lookupD rest t

/-- The keys of the violation dictionary, in insertion order. -/
def keysD (d : VDict) : List Term :=
  d.map Prod.fst

/-- Python in-place update `violationDict[k] = f (violationDict[k])`
(dict keys are unique, so at most one entry changes). -/
def updateD (d : VDict) (k : Term) (f : VGraph → VGraph) : VDict :=
  d.map fun kg => if kg.1 = k then (kg.1, f kg.2) else kg

/-- rdflib `Graph.add`: set insertion of a triple. -/
def addT (t : Triple) (g : VGraph) : VGraph :=
  if t ∈ g.triples then g else { g with triples := g.triples ++ [t] }

/-- Round 1 of `__attachOffendingTriples` (one triple): if the object is a
not-yet-seen object of a `sh:result` triple, create its empty sub-graph,
pre-bound with the current namespace registry. -/
def step1 (ns : NsDict) (d : VDict) (t : Triple) : VDict :=
  if (lookupD d t.2.2).isNone ∧ t.2.1 = SH_result then
    d ++ [(t.2.2, ⟨ns, [], []⟩)]
  else d

/-- Round 1 of `__attachOffendingTriples` over the results graph. -/
def pass1 (ns : NsDict) (d : VDict) (ts : List Triple) : VDict :=
  ts.foldl (step1 ns) d

/-- Round 2 of `__attachOffendingTriples` (one triple): add the triple to
the sub-graph of its subject, when the subject is a violation key. -/
def step2 (d : VDict) (t : Triple) : VDict :=
  if (lookupD d t.1).isSome then updateD d t.1 (addT t) else d

/-- Round 2 of `__attachOffendingTriples` over the results graph. -/
def pass2 (d : VDict) (ts : List Triple) : VDict :=
  ts.foldl step2 d

/-- The violation grouper: both rounds of `__attachOffendingTriples`
(lines 131-140 of `validate.py`). -/
def groupViolations (ns : NsDict) (ts : List Triple) : VDict :=
  pass2 (pass1 ns [] ts) ts

/-- The objects `?o` of the SPARQL query `SELECT ?s ?p ?o WHERE {?s <pred> ?o .}`
over a violation sub-graph (one row per matching triple). -/
def objsFor (v : VGraph) (iriStr : String) : List Term :=
  (v.triples.filter fun t => decide (t.2.1 = Term.iri iriStr)).map fun t => t.2.2

/-- `__violationPredicateObj(violation, 'sh:<loc>', mustFind=False)`:
resolve the qname through `initNs=self.namespaceDict` (a missing prefix is
a SPARQL-parse error) and return the first object found, or `None`. -/
def violationPredicateObjOpt (nsDict : NsDict) (v : VGraph) (p loc : String) :
    Except PErr (Option Term) :=
  match lookupNs nsDict p with
  | none => .error .sparqlError
  | some nsv => .ok (objsFor v (nsv ++ loc)).head?

/-- `__violationPredicateObj(violation, 'sh:<loc>')` with `mustFind=True`:
assert exactly one result row, then return its object. -/
def violationPredicateObjMust (nsDict : NsDict) (v : VGraph) (p loc : String) :
    Except PErr Term :=
  match lookupNs nsDict p with
  | none => .error .sparqlError
  | some nsv =>
    match objsFor v (nsv ++ loc) with
    | [x] => .ok x
    | _ => .error .assertionError

/-- `__queryDataGraph(s, p, o)`: triple-pattern query over the data graph
(`none` is a wildcard), asserting at least one match. -/
def queryDataGraph (data : RGraph) (s p o : Option Term) :
    Except PErr (List Triple) :=
  let res := data.triples.filter fun t =>
    (match s with | some x => decide (t.1 = x) | none => true) &&
    (match p with | some x => decide (t.2.1 = x) | none => true) &&
    (match o with | some x => decide (t.2.2 = x) | none => true)
  if res.length = 0 then .error .assertionError else .ok res

/-- `__triplesForOneViolation`, lines 210-242: the branch taken when the
violation carries no (truthy) `sh:resultPath`.  Mirrors the source:
`sourceShape.split('#')` must yield exactly two parts (else `ValueError`),
a `<P>DomainShape` name leads to a data-graph query for
`(<pfx>:<name>, brick:<P>, ?o)` and one attachment per match, and the final
fall-through evaluates `g.serialize` where the local `g` was never bound,
so Python raises `NameError`. -/
def noPathBranch (nsDict : NsDict) (data : RGraph) (v : VGraph) :
    Except PErr VGraph :=
  match violationPredicateObjMust nsDict v "sh" "sourceShape" with
  | .error e => .error e
  | .ok sourceShape =>
    match splitHash sourceShape.pyStr with
    | [_bsh, shapeName] =>
      if endsL shapeName "DomainShape" then
        let brickProp := pyDropRight shapeName (String.length "DomainShape")
        match lookupNs nsDict "brick" with
        | none => .error .keyError
        | some brickNs =>
          let fullPath := brickNs ++ brickProp
          match violationPredicateObjMust nsDict v "sh" "focusNode" with
          | .error e => .error e
          | .ok focusNode =>
            match splitHash focusNode.pyStr with
            | [ns, name] =>
              let pfxs :=
                (nsDict.filter fun kv => decide (kv.2 = ns ++ "#")).map Prod.fst
              match pfxs with
              | [] => .error .assertionError
              | pfx :: _ =>
                let subj := Term.iri (((lookupNs nsDict pfx).getD "") ++ name)
                match queryDataGraph data (some subj)
                    (some (Term.iri fullPath)) none with
                | .error e => .error e
                | .ok res =>
                  let newAtts :=
                    res.map (fun t => [(focusNode, Term.iri fullPath, some t.2.2)])
                  .ok { v with atts := v.atts ++ newAtts }
            | _ => .error .valueError
      else
        .error .nameError
    | _ => .error .valueError

/-- `__triplesForOneViolation`, lines 190-242: path-based resolution when a
truthy `sh:resultPath` object exists, else the no-path branch.  The path
branch executes `g.add((focusNode, resultPath, valueNode))` (line 206);
rdflib's `Graph.add` asserts that every position of the triple is a
`Node`, so when `sh:value` is absent (`valueNode` is Python `None`) that
call raises `AssertionError` instead of storing the triple. -/
def triplesForOneViolation (nsDict : NsDict) (data : RGraph) (v : VGraph) :
    Except PErr VGraph :=
  match violationPredicateObjOpt nsDict v "sh" "resultPath" with
  | .error e => .error e
  | .ok resultPath =>
    match resultPath with
    | some rp =>
      if rp.truthy then
        match violationPredicateObjMust nsDict v "sh" "focusNode" with
        | .error e => .error e
        | .ok focusNode =>
          match violationPredicateObjOpt nsDict v "sh" "value" with
          | .error e => .error e
          | .ok valueNode =>
            match valueNode with
            | none => .error .assertionError
            | some vn =>
              .ok { v with atts := v.atts ++ [[(focusNode, rp, some vn)]] }
      else noPathBranch nsDict data v
    | none => noPathBranch nsDict data v

/-- The loop `for k, violation in self.violationDict.items():
__triplesForOneViolation(violation)` (in-place enrichment). -/
def resolveAll (nsDict : NsDict) (data : RGraph) :
    VDict → Except PErr VDict
  | [] => .ok []
  | (k, v) :: rest =>
    match triplesForOneViolation nsDict data v with
    | .error e => .error e
    | .ok v2 =>
      match resolveAll nsDict data rest with
      | .error e => .error e
      | .ok rest2 => .ok ((k, v2) :: rest2)

/-- `__attachOffendingTriples` (lines 114-144): reset the registry, rebuild
it from the results graph then the data graph, group the violations, and
resolve each one.  Returns the new registry and violation dictionary. -/
def attachOffendingTriples (results data : RGraph) :
    Except PErr (NsDict × VDict) :=
  match buildNamespaceDict [] results.ns with
  | .error e => .error e
  | .ok d1 =>
    match buildNamespaceDict d1 data.ns with
    | .error e => .error e
    | .ok d =>
      match resolveAll d data (groupViolations d results.triples) with
      | .error e => .error e
      | .ok vd => .ok (d, vd)

/-- rdflib `Graph.__add__`: set union of the triples; attachment triples
carry fresh blank nodes so they never collide. -/
def vunion (a b : VGraph) : VGraph :=
  ⟨a.bindings ++ b.bindings,
   a.triples ++ b.triples.filter (fun t => decide (t ∉ a.triples)),
   a.atts ++ b.atts⟩

/-- `Graph()`: the empty graph. -/
def emptyVG : VGraph := ⟨[], [], []⟩

/-- The mutable state of one `Validate` instance: the constructor flag, the
default ontology and shape graphs, the namespace registry, and the
violation dictionary (`none` models the attribute never having been set). -/
structure VState where
  attachOffender : Bool
  brickG : RGraph
  shapeG : RGraph
  namespaceDict : NsDict
  violationDict : Option VDict
  deriving DecidableEq, Repr

/-- What `pyshacl.validate` (the external engine) returned. -/
structure EngineResult where
  conforms : Bool
  results_graph : RGraph
  results_text : String
  deriving DecidableEq, Repr

/-- The middle component of `validate`'s return value: either the engine's
raw results graph or the packed union of the enriched violations. -/
inductive ResultGraph where
  | raw : RGraph → ResultGraph
  | enriched : VGraph → ResultGraph
  deriving DecidableEq, Repr

/-- `Validate.validate` (lines 50-85), with the engine's output given as a
value: return the raw results when conforming or when offender attachment
is off; otherwise attach offending triples and pack the violations. -/
def validateCall (st : VState) (eng : EngineResult) (data : RGraph) :
    Except PErr ((Bool × ResultGraph × String) × VState) :=
  if eng.conforms || !st.attachOffender then
    .ok ((eng.conforms, .raw eng.results_graph, eng.results_text), st)
  else
    match attachOffendingTriples eng.results_graph data with
    | .error e => .error e
    | .ok (d, vd) =>
      let violationsG := vd.foldl (fun acc kv => vunion acc kv.2) emptyVG
      .ok ((eng.conforms, .enriched violationsG, eng.results_text),
           { st with namespaceDict := d, violationDict := some vd })

/-- `Validate.violationList`: `list(self.violationDict.values())`; touching
the attribute before any non-conforming attachment pass raises
`AttributeError`. -/
def violationList (st : VState) : Except PErr (List VGraph) :=
  match st.violationDict with
  | none => .error .attributeError
  | some d => .ok (d.map Prod.snd)

/-- `Validate.__init__` (lines 24-47), with the parsed `Brick.ttl` and
`BrickShape.ttl` given as values: build the registry from the ontology
graph, then delete every `rdfs:domain` and `rdfs:range` triple (the two
SPARQL `DELETE` updates, whose `rdfs:` qname resolves through `initNs`). -/
def initValidate (attachOffender : Bool) (brickParsed shapeParsed : RGraph) :
    Except PErr VState :=
  match buildNamespaceDict [] brickParsed.ns with
  | .error e => .error e
  | .ok d =>
    match lookupNs d "rdfs" with
    | none => .error .sparqlError
    | some rdfsNs =>
      let g1 : RGraph := ⟨brickParsed.ns,
        brickParsed.triples.filter fun t => decide (t.2.1 ≠ Term.iri (rdfsNs ++ "domain"))⟩
      let g2 : RGraph := ⟨g1.ns,
        g1.triples.filter fun t => decide (t.2.1 ≠ Term.iri (rdfsNs ++ "range"))⟩
      .ok ⟨attachOffender, g2, shapeParsed, d, none⟩

/-- Line 67: `og = ont_graph if ont_graph else self.brickG` (an explicitly
passed but empty graph is falsy in Python and is also replaced). -/
def selectOntGraph (st : VState) (ont : Option RGraph) : RGraph :=
  match ont with
  | some g => if g.triples.isEmpty then st.brickG else g
  | none => st.brickG

/-- The line filter of `ResultsSerialize.__appendGraph`: drop `@prefix`
declaration lines, lines naming the offending-triple marker, and blank
lines. -/
def keepLine (line : String) : Bool :=
  !(startsL line.data ("@prefix".data)) &&
  !(hasInfixAux ("offendingTriple".data) line.data) &&
  !(line.data.all Char.isWhitespace)

/-- `ResultsSerialize.__appendGraph`: write the message (when given), then
the kept serialized lines, each followed by a newline.  Serialization
itself (with the registry's bindings applied) is the external rdflib
collaborator; its output lines are taken as input. -/
def appendGraphS (msg : Option String) (lines : List String) : String :=
  (match msg with | some m => m | none => "") ++
  String.join ((lines.filter keepLine).map (fun l => l ++ "\n"))

/-- `ResultsSerialize.__appendViolation`: the violation body, then either
the fixed placeholder (zero attachments) or a labelled section with every
attached inner graph.  `ser` serializes a violation sub-graph and
`serInner` an inner offending-triple graph, both under the registry. -/
def appendViolation (ser : NsDict → VGraph → List String)
    (serInner : NsDict → List OTriple → List String)
    (nsDict : NsDict) (msg : Option String) (v : VGraph) : String :=
  let body := appendGraphS msg (ser nsDict v)
  if v.atts.length = 0 then
    body ++ "Please add triple finder for the above violation!!!\n"
  else
    body ++
    (if v.atts.length = 1 then "Offending triple:\n"
     else "Potential offending triples:\n") ++
    String.join (v.atts.map (fun ig => appendGraphS none (serInner nsDict ig)))

/-- `ResultsSerialize.appendToOutput`: the additional-info header, then
every violation rendered in order. -/
def appendToOutput (ser : NsDict → VGraph → List String)
    (serInner : NsDict → List OTriple → List String)
    (nsDict : NsDict) (vl : List VGraph) : String :=
  "\nAdditional info (" ++ toString vl.length ++
  " constraint violations with offending triples):\n" ++
  String.join (vl.map (fun g =>
    appendViolation ser serInner nsDict (some "\nConstraint violation:\n") g))

theorem lookupD_isSome_iff {d : VDict} {k : Term} :
    (lookupD d k).isSome = true ↔ k ∈ keysD d := by
  induction d with
  | nil => simp [lookupD, keysD]
  | cons kg rest ih =>
    obtain ⟨a, g⟩ := kg
    by_cases h : a = k
    · subst h
      simp [lookupD, keysD]
    · simp only [lookupD, keysD, List.map_cons, List.mem_cons, if_neg h]
      rw [keysD] at ih
      constructor
      · intro hh
        exact Or.inr (ih.mp hh)
      · rintro (rfl | hh)
        · exact absurd rfl h
        · exact ih.mpr hh

theorem lookupD_some_mem {d : VDict} {k : Term} {g : VGraph}
    (h : lookupD d k = some g) : (k, g) ∈ d := by
  induction d with
  | nil => simp [lookupD] at h
  | cons kg rest ih =>
    obtain ⟨a, b⟩ := kg
    simp only [lookupD] at h
    split at h
    · cases h
      simp_all
    · simp [ih h]

theorem nodup_mem_iff_lookupD {d : VDict} {k : Term} {g : VGraph}
    (hnd : (keysD d).Nodup) : (k, g) ∈ d ↔ lookupD d k = some g := by
  induction d with
  | nil => simp [lookupD]
  | cons kg rest ih =>
    obtain ⟨a, b⟩ := kg
    simp only [keysD, List.map_cons, List.nodup_cons] at hnd
    obtain ⟨hna, hnrest⟩ := hnd
    by_cases h : a = k
    · subst h
      simp only [lookupD, if_pos rfl, List.mem_cons]
      constructor
      · rintro (h1 | h1)
        · cases h1
          rfl
        · exact absurd (List.mem_map_of_mem Prod.fst h1) hna
      · rintro h1
        cases h1
        exact Or.inl rfl
    · simp only [lookupD, if_neg h, List.mem_cons]
      rw [← ih hnrest]
      constructor
      · rintro (h1 | h1)
        · cases h1
          exact absurd rfl h
        · exact h1
      · exact Or.inr

theorem keysD_append (d1 d2 : VDict) :
    keysD (d1 ++ d2) = keysD d1 ++ keysD d2 := by
  simp [keysD]

theorem keysD_updateD (d : VDict) (k : Term) (f : VGraph → VGraph) :
    keysD (updateD d k f) = keysD d := by
  simp only [keysD, updateD, List.map_map]
  congr 1
  funext kg
  by_cases h : kg.1 = k <;> simp [h]

theorem keysD_step2 (d : VDict) (t : Triple) :
    keysD (step2 d t) = keysD d := by
  unfold step2
  split
  · exact keysD_updateD d t.1 (addT t)
  · rfl

theorem keysD_pass2 (ts : List Triple) : ∀ d : VDict,
    keysD (pass2 d ts) = keysD d := by
  induction ts with
  | nil => intro d; rfl
  | cons t rest ih =>
    intro d
    show keysD (pass2 (step2 d t) rest) = keysD d
    rw [ih (step2 d t), keysD_step2]

theorem keysD_step1 (ns : NsDict) (d : VDict) (t : Triple) :
    keysD (step1 ns d t) =
      if (lookupD d t.2.2).isNone ∧ t.2.1 = SH_result
      then keysD d ++ [t.2.2] else keysD d := by
  unfold step1
  split
  · rw [keysD_append]; rfl
  · rfl

theorem nodup_keysD_pass1 (ns : NsDict) (ts : List Triple) : ∀ d : VDict,
    (keysD d).Nodup → (keysD (pass1 ns d ts)).Nodup := by
  induction ts with
  | nil => intro d h; exact h
  | cons t rest ih =>
    intro d h
    show (keysD (pass1 ns (step1 ns d t) rest)).Nodup
    apply ih
    rw [keysD_step1]
    split
    · rename_i hc
      have hmem : t.2.2 ∉ keysD d := by
        intro hm
        rw [← lookupD_isSome_iff] at hm
        simp [Option.isNone_iff_eq_none] at hc
        rw [hc.1] at hm
        simp at hm
      simp [List.nodup_append, h, hmem]
    · exact h

theorem mem_keysD_pass1 (ns : NsDict) (ts : List Triple) : ∀ (d : VDict) (k : Term),
    k ∈ keysD (pass1 ns d ts) ↔ k ∈ keysD d ∨ ∃ s, (s, SH_result, k) ∈ ts := by
  induction ts with
  | nil => intro d k; simp [pass1]
  | cons t rest ih =>
    intro d k
    obtain ⟨s0, p0, o0⟩ := t
    show k ∈ keysD (pass1 ns (step1 ns d (s0, p0, o0)) rest) ↔ _
    rw [ih (step1 ns d (s0, p0, o0)) k, keysD_step1]
    simp only [List.mem_cons]
    constructor
    · rintro (hk | hk)
      · split at hk
        · rename_i hc
          rcases List.mem_append.mp hk with hk1 | hk1
          · exact Or.inl hk1
          · simp only [List.mem_singleton] at hk1
            subst hk1
            refine Or.inr ⟨s0, Or.inl ?_⟩
            have hp : p0 = SH_result := hc.2
            rw [hp]
        · exact Or.inl hk
      · obtain ⟨s, hs⟩ := hk
        exact Or.inr ⟨s, Or.inr hs⟩
    · rintro (hk | ⟨s, hs | hs⟩)
      · left
        split
        · exact List.mem_append_left _ hk
        · exact hk
      · cases hs
        left
        by_cases hin : (lookupD d k).isNone = true
        · rw [if_pos ⟨hin, rfl⟩]
          simp
        · rw [if_neg (fun hc => hin hc.1)]
          rw [← lookupD_isSome_iff]
          cases hlk : lookupD d k with
          | none => exact absurd (by rw [hlk]; rfl) hin
          | some g => rfl
      · exact Or.inr ⟨s, hs⟩

theorem entries_pass1 (ns : NsDict) (ts : List Triple) :
    ∀ (d : VDict) (k : Term) (g : VGraph),
    (k, g) ∈ pass1 ns d ts → (k, g) ∈ d ∨ g = ⟨ns, [], []⟩ := by
  induction ts with
  | nil => intro d k g h; exact Or.inl h
  | cons t rest ih =>
    intro d k g h
    rcases ih (step1 ns d t) k g h with h1 | h1
    · unfold step1 at h1
      split at h1
      · rcases List.mem_append.mp h1 with h2 | h2
        · exact Or.inl h2
        · simp only [List.mem_singleton, Prod.mk.injEq] at h2
          exact Or.inr h2.2
      · exact Or.inl h1
    · exact Or.inr h1

/-- Adding to one key's sub-graph every processed triple whose subject is
that key: what round 2 does to a single dictionary entry. -/
def foldAdd (k : Term) (ts : List Triple) (g : VGraph) : VGraph :=
  ts.foldl (fun g t => if t.1 = k then addT t g else g) g

theorem updateD_cons (a : Term) (g : VGraph) (rest : VDict) (k : Term)
    (f : VGraph → VGraph) :
    updateD ((a, g) :: rest) k f =
      (if a = k then (a, f g) else (a, g)) :: updateD rest k f := by
  by_cases h : a = k <;> simp [updateD, h]

theorem lookupD_updateD_self (d : VDict) (k : Term) (f : VGraph → VGraph) :
    lookupD (updateD d k f) k = (lookupD d k).map f := by
  induction d with
  | nil => rfl
  | cons kg rest ih =>
    obtain ⟨a, g⟩ := kg
    rw [updateD_cons]
    by_cases h : a = k
    · subst h
      rw [if_pos rfl]
      simp [lookupD]
    · rw [if_neg h]
      simp only [lookupD, if_neg h]
      exact ih

theorem lookupD_updateD_ne (d : VDict) (k k' : Term) (f : VGraph → VGraph)
    (h : k ≠ k') : lookupD (updateD d k f) k' = lookupD d k' := by
  induction d with
  | nil => rfl
  | cons kg rest ih =>
    obtain ⟨a, g⟩ := kg
    rw [updateD_cons]
    by_cases ha : a = k
    · subst ha
      rw [if_pos rfl]
      simp only [lookupD, if_neg h]
      exact ih
    · rw [if_neg ha]
      simp only [lookupD]
      by_cases ha' : a = k' <;> simp [ha', ih]

theorem lookupD_step2 (d : VDict) (t : Triple) (k : Term) :
    lookupD (step2 d t) k =
      (lookupD d k).map (fun g => if t.1 = k then addT t g else g) := by
  unfold step2
  by_cases hk : t.1 = k
  · subst hk
    split
    · rw [lookupD_updateD_self]
      simp
    · rename_i hs
      cases hlk : lookupD d t.1 with
      | none => rfl
      | some g => rw [hlk] at hs; simp at hs
  · split
    · rw [lookupD_updateD_ne _ _ _ _ hk]
      cases lookupD d k <;> simp [hk]
    · cases lookupD d k <;> simp [hk]

theorem lookupD_pass2 (ts : List Triple) : ∀ (d : VDict) (k : Term),
    lookupD (pass2 d ts) k = (lookupD d k).map (foldAdd k ts) := by
  induction ts with
  | nil =>
    intro d k
    cases hlk : lookupD d k <;> simp [pass2, foldAdd, hlk]
  | cons t rest ih =>
    intro d k
    show lookupD (pass2 (step2 d t) rest) k = _
    rw [ih (step2 d t) k, lookupD_step2]
    cases hlk : lookupD d k <;> simp [foldAdd, hlk]

theorem mem_addT (t' t : Triple) (g : VGraph) :
    t' ∈ (addT t g).triples ↔ t' ∈ g.triples ∨ t' = t := by
  unfold addT
  split
  · rename_i h
    constructor
    · exact Or.inl
    · rintro (h1 | rfl)
      · exact h1
      · exact h
  · simp

theorem nodup_addT (t : Triple) (g : VGraph) (h : g.triples.Nodup) :
    (addT t g).triples.Nodup := by
  unfold addT
  split
  · exact h
  · rename_i hn
    simp [List.nodup_append, h, hn]

theorem bindings_addT (t : Triple) (g : VGraph) :
    (addT t g).bindings = g.bindings := by
  unfold addT
  split <;> rfl

theorem atts_addT (t : Triple) (g : VGraph) : (addT t g).atts = g.atts := by
  unfold addT
  split <;> rfl

theorem mem_foldAdd (k : Term) (ts : List Triple) : ∀ (g : VGraph) (t' : Triple),
    t' ∈ (foldAdd k ts g).triples ↔
      t' ∈ g.triples ∨ (t' ∈ ts ∧ t'.1 = k) := by
  induction ts with
  | nil =>
    intro g t'
    simp [foldAdd]
  | cons t rest ih =>
    intro g t'
    show t' ∈ (foldAdd k rest (if t.1 = k then addT t g else g)).triples ↔ _
    rw [ih]
    by_cases hk : t.1 = k
    · rw [if_pos hk]
      rw [mem_addT]
      simp only [List.mem_cons]
      constructor
      · rintro ((h1 | rfl) | ⟨h1, h2⟩)
        · exact Or.inl h1
        · exact Or.inr ⟨Or.inl rfl, hk⟩
        · exact Or.inr ⟨Or.inr h1, h2⟩
      · rintro (h1 | ⟨rfl | h1, h2⟩)
        · exact Or.inl (Or.inl h1)
        · exact Or.inl (Or.inr rfl)
        · exact Or.inr ⟨h1, h2⟩
    · rw [if_neg hk]
      simp only [List.mem_cons]
      constructor
      · rintro (h1 | ⟨h1, h2⟩)
        · exact Or.inl h1
        · exact Or.inr ⟨Or.inr h1, h2⟩
      · rintro (h1 | ⟨rfl | h1, h2⟩)
        · exact Or.inl h1
        · exact absurd h2 hk
        · exact Or.inr ⟨h1, h2⟩

theorem nodup_foldAdd (k : Term) (ts : List Triple) : ∀ g : VGraph,
    g.triples.Nodup → (foldAdd k ts g).triples.Nodup := by
  induction ts with
  | nil => intro g h; exact h
  | cons t rest ih =>
    intro g h
    show ((foldAdd k rest (if t.1 = k then addT t g else g)).triples).Nodup
    apply ih
    split
    · exact nodup_addT t g h
    · exact h

/-- C4: For every results graph, the Violation Grouper produces exactly one
sub-graph per distinct object of a `sh:result` triple (the key list has no
duplicates and contains exactly those objects), and every triple of the
results graph whose subject equals one of those violation keys is placed in
exactly that key's sub-graph — no such triple is lost or duplicated, and no
triple whose subject is not a violation key is added to any sub-graph. -/
theorem grouper_partition (ns : NsDict) (ts : List Triple) :
    ((keysD (groupViolations ns ts)).Nodup ∧
      ∀ k, k ∈ keysD (groupViolations ns ts) ↔ ∃ s, (s, SH_result, k) ∈ ts) ∧
    ∀ k g, (k, g) ∈ groupViolations ns ts →
      g.triples.Nodup ∧ ∀ t, t ∈ g.triples ↔ t ∈ ts ∧ t.1 = k := by
  have hkeys : keysD (groupViolations ns ts) = keysD (pass1 ns [] ts) :=
    keysD_pass2 ts _
  have hnd : (keysD (groupViolations ns ts)).Nodup := by
    rw [hkeys]
    exact nodup_keysD_pass1 ns ts [] (by simp [keysD])
  refine ⟨⟨hnd, ?_⟩, ?_⟩
  · intro k
    rw [hkeys, mem_keysD_pass1]
    simp [keysD]
  · intro k g hmem
    have hlk : lookupD (groupViolations ns ts) k = some g :=
      (nodup_mem_iff_lookupD hnd).mp hmem
    unfold groupViolations at hlk
    rw [lookupD_pass2] at hlk
    cases hlk0 : lookupD (pass1 ns [] ts) k with
    | none => rw [hlk0] at hlk; simp at hlk
    | some g0 =>
      rw [hlk0] at hlk
      simp only [Option.map_some', Option.some.injEq] at hlk
      have hg0 : g0 = ⟨ns, [], []⟩ := by
        rcases entries_pass1 ns ts [] k g0 (lookupD_some_mem hlk0) with h | h
        · simp at h
        · exact h
      constructor
      · rw [← hlk]
        exact nodup_foldAdd k ts _ (by rw [hg0]; exact List.nodup_nil)
      · intro t
        rw [← hlk, mem_foldAdd, hg0]
        simp

/-- Concrete results graph for exercising the grouper: one `sh:result`
triple and one descriptive triple of the reported violation. -/
def tsW4 : List Triple :=
  [(Term.bnode 0, SH_result, Term.bnode 1),
   (Term.bnode 1, Term.iri "urn:p", Term.iri "urn:o")]

/-- The sub-graph the grouper builds for the key `bnode 1` of `tsW4`. -/
def gW4 : VGraph :=
  ⟨[], [(Term.bnode 1, Term.iri "urn:p", Term.iri "urn:o")], []⟩

/-- Witness for C4 at a concrete results graph. -/
theorem grouper_partition_w :
    gW4.triples.Nodup ∧
      ∀ t, t ∈ gW4.triples ↔ t ∈ tsW4 ∧ t.1 = Term.bnode 1 :=
  (grouper_partition [] tsW4).2 (Term.bnode 1) gW4
    (by rw [show groupViolations [] tsW4 = [(Term.bnode 1, gW4)] from rfl]
        exact List.mem_singleton.mpr rfl)

/-- C3: For every state of the Namespace Registry, registering a prefix
that is already bound to a different namespace IRI raises the consistency
assertion and never silently overwrites (any successful registration
sequence preserves every existing binding); re-registering a prefix with
the same IRI succeeds and changes nothing. -/
theorem namespace_bind_consistency (d : NsDict) (p path v : String)
    (hv : lookupNs d p = some v) :
    (v ≠ path → buildNamespaceDict d [(p, path)] = .error .assertionError) ∧
    (v = path → buildNamespaceDict d [(p, path)] = .ok d) ∧
    ∀ (l : List (String × String)) (d' : NsDict),
      buildNamespaceDict d l = .ok d' → lookupNs d' p = some v := by
  refine ⟨?_, ?_, ?_⟩
  · intro hne
    have hb : bindNs d p path = .error .assertionError := by
      unfold bindNs
      rw [hv]
      dsimp only
      rw [if_neg (fun h => hne h.symm)]
    unfold buildNamespaceDict
    rw [hb]
  · intro heq
    have hb : bindNs d p path = .ok d := by
      unfold bindNs
      rw [hv]
      dsimp only
      rw [if_pos heq.symm]
    unfold buildNamespaceDict
    rw [hb]
    rfl
  · intro l d' hbd
    exact buildNamespaceDict_preserves hbd hv

/-- Witness for C3: an existing binding `a ↦ urn:a`; rebinding to
`urn:b` raises, rebinding to `urn:a` is a no-op, and a later registration
of `b` keeps `a`'s binding. -/
theorem namespace_bind_consistency_w :
    buildNamespaceDict [("a", "urn:a")] [("a", "urn:b")] =
      .error .assertionError ∧
    buildNamespaceDict [("a", "urn:a")] [("a", "urn:a")] =
      .ok [("a", "urn:a")] ∧
    lookupNs [("a", "urn:a"), ("b", "urn:b")] "a" = some "urn:a" := by
  have h1 := namespace_bind_consistency [("a", "urn:a")] "a" "urn:b" "urn:a" rfl
  have h2 := namespace_bind_consistency [("a", "urn:a")] "a" "urn:a" "urn:a" rfl
  exact ⟨h1.1 (by decide), h2.2.1 rfl,
    h2.2.2 [("b", "urn:b")] [("a", "urn:a"), ("b", "urn:b")] rfl⟩

/-- C10: After a successful construction, the default ontology graph
contains no triple whose predicate is `rdfs:domain` or `rdfs:range` (for
whatever IRI the prefix `rdfs` resolved to in the registry built from the
ontology file), and a validate call without an explicit ontology graph
selects exactly this stripped default graph. -/
theorem init_strips_domain_range (ao : Bool) (bp sp : RGraph) (st : VState)
    (rdfsNs : String)
    (hinit : initValidate ao bp sp = .ok st)
    (hrdfs : lookupNs st.namespaceDict "rdfs" = some rdfsNs) :
    (∀ t ∈ st.brickG.triples,
      t.2.1 ≠ Term.iri (rdfsNs ++ "domain") ∧
      t.2.1 ≠ Term.iri (rdfsNs ++ "range")) ∧
    selectOntGraph st none = st.brickG := by
  unfold initValidate at hinit
  cases hb : buildNamespaceDict [] bp.ns with
  | error e =>
    rw [hb] at hinit
    exact Except.noConfusion hinit
  | ok d =>
    rw [hb] at hinit
    dsimp only at hinit
    cases hr : lookupNs d "rdfs" with
    | none =>
      rw [hr] at hinit
      exact Except.noConfusion hinit
    | some r =>
      rw [hr] at hinit
      dsimp only at hinit
      cases hinit
      dsimp only at hrdfs
      rw [hr] at hrdfs
      cases hrdfs
      constructor
      · intro t ht
        dsimp only at ht
        have h2 := List.of_mem_filter ht
        have h1 := List.of_mem_filter (List.mem_of_mem_filter ht)
        exact ⟨of_decide_eq_true h1, of_decide_eq_true h2⟩
      · rfl

/-- Parsed ontology input used to exercise C10: it binds `rdfs` and
carries one `rdfs:domain` triple, one `rdfs:range` triple and one
unrelated triple. -/
def bpW : RGraph :=
  ⟨[("rdfs", "http://www.w3.org/2000/01/rdf-schema#")],
   [(Term.iri "urn:s", Term.iri "http://www.w3.org/2000/01/rdf-schema#domain",
     Term.iri "urn:o"),
    (Term.iri "urn:s", Term.iri "http://www.w3.org/2000/01/rdf-schema#range",
     Term.iri "urn:o"),
    (Term.iri "urn:s", Term.iri "urn:p", Term.iri "urn:o")]⟩

/-- The validator state produced by constructing on `bpW`. -/
def stW : VState :=
  ⟨true,
   ⟨[("rdfs", "http://www.w3.org/2000/01/rdf-schema#")],
    [(Term.iri "urn:s", Term.iri "urn:p", Term.iri "urn:o")]⟩,
   ⟨[], []⟩,
   [("rdfs", "http://www.w3.org/2000/01/rdf-schema#")],
   none⟩

/-- Witness for C10 at the concrete ontology `bpW`. -/
theorem init_strips_domain_range_w :
    (∀ t ∈ stW.brickG.triples,
      t.2.1 ≠ Term.iri ("http://www.w3.org/2000/01/rdf-schema#" ++ "domain") ∧
      t.2.1 ≠ Term.iri ("http://www.w3.org/2000/01/rdf-schema#" ++ "range")) ∧
    selectOntGraph stW none = stW.brickG :=
  init_strips_domain_range true bpW ⟨[], []⟩ stW
    "http://www.w3.org/2000/01/rdf-schema#" rfl rfl

/-- Fresh validator state used to refute C2. -/
def st0c2 : VState := ⟨true, ⟨[], []⟩, ⟨[], []⟩, [], none⟩

/-- First engine result for the C2 counterexample: non-conforming, its
results graph binds `ex`. -/
def eng1c2 : EngineResult := ⟨false, ⟨[("ex", "http://example.com#")], []⟩, "r1"⟩

/-- Second engine result for the C2 counterexample: non-conforming, no
bindings at all. -/
def eng2c2 : EngineResult := ⟨false, ⟨[], []⟩, "r2"⟩

/-- Empty data graph for the C2 counterexample. -/
def dc2 : RGraph := ⟨[], []⟩

/-- State after the first C2 call: `ex` is bound. -/
def st1c2 : VState :=
  ⟨true, ⟨[], []⟩, ⟨[], []⟩, [("ex", "http://example.com#")], some []⟩

/-- State after the second C2 call: the registry was rebuilt from scratch
and `ex` is gone. -/
def st2c2 : VState := ⟨true, ⟨[], []⟩, ⟨[], []⟩, [], some []⟩

/-- Counterexample to C2: the binding `ex ↦ http://example.com#` is
present in the registry after the first validate call but absent after the
next one, because `__attachOffendingTriples` reassigns the registry to an
empty dict before rebuilding it from the current graphs. -/
theorem namespace_registry_reset_cex :
    validateCall st0c2 eng1c2 dc2 =
      .ok ((false, .enriched emptyVG, "r1"), st1c2) ∧
    lookupNs st1c2.namespaceDict "ex" = some "http://example.com#" ∧
    validateCall st1c2 eng2c2 dc2 =
      .ok ((false, .enriched emptyVG, "r2"), st2c2) ∧
    lookupNs st2c2.namespaceDict "ex" = none :=
  ⟨rfl, rfl, rfl, rfl⟩

/-- C2 as amended: within one registration pass the Namespace Registry
only grows (no binding is ever removed by `buildNamespaceDict`), but the
registry does not persist across validate calls: every non-conforming,
attachment-enabled call resets it and rebuilds it from only the current
results and data graphs, so the post-call registry is independent of
whatever the registry held before the call. -/
theorem registry_growth_within_pass :
    (∀ (d : NsDict) (l : List (String × String)) (d' : NsDict) (p v : String),
      buildNamespaceDict d l = .ok d' → lookupNs d p = some v →
      lookupNs d' p = some v) ∧
    (∀ (st1 st2 : VState) (eng : EngineResult) (data : RGraph)
      (r1 r2 : Bool × ResultGraph × String) (s1 s2 : VState),
      eng.conforms = false → st1.attachOffender = true →
      st2.attachOffender = true →
      validateCall st1 eng data = .ok (r1, s1) →
      validateCall st2 eng data = .ok (r2, s2) →
      s1.namespaceDict = s2.namespaceDict) := by
  constructor
  · intro d l d' p v hb hv
    exact buildNamespaceDict_preserves hb hv
  · intro st1 st2 eng data r1 r2 s1 s2 hc h1 h2 hv1 hv2
    unfold validateCall at hv1 hv2
    rw [hc, h1] at hv1
    rw [hc, h2] at hv2
    dsimp only [Bool.not_true, Bool.or_false] at hv1 hv2
    rw [if_neg (by simp)] at hv1
    rw [if_neg (by simp)] at hv2
    cases hat : attachOffendingTriples eng.results_graph data with
    | error e =>
      rw [hat] at hv1
      exact Except.noConfusion hv1
    | ok dvd =>
      obtain ⟨d, vd⟩ := dvd
      rw [hat] at hv1 hv2
      dsimp only at hv1 hv2
      cases hv1
      cases hv2
      rfl

/-- Witness for the amended C2: a successful registration extends the
registry without dropping `a`, and the post-call registry of two calls on
states with different prior registries coincides. -/
theorem registry_growth_within_pass_w :
    lookupNs [("a", "urn:a"), ("b", "urn:b")] "a" = some "urn:a" ∧
    st2c2.namespaceDict = st2c2.namespaceDict :=
  ⟨registry_growth_within_pass.1 [("a", "urn:a")] [("b", "urn:b")]
      [("a", "urn:a"), ("b", "urn:b")] "a" "urn:a" rfl rfl,
   registry_growth_within_pass.2 st0c2 st1c2 eng2c2 dc2
      (false, .enriched emptyVG, "r2") (false, .enriched emptyVG, "r2")
      st2c2 st2c2 rfl rfl rfl rfl rfl⟩

/-- Fresh validator state used for C8: `violationDict` was never set. -/
def st8 : VState := ⟨true, ⟨[], []⟩, ⟨[], []⟩, [], none⟩

/-- A conforming engine result for C8. -/
def eng8 : EngineResult :=
  ⟨true, ⟨[("sh", "http://www.w3.org/ns/shacl#")],
    [(Term.bnode 0, Term.iri "urn:p", Term.bnode 1)]⟩, "ok"⟩

/-- Empty data graph for C8. -/
def data8 : RGraph := ⟨[], []⟩

/-- Counterexample to C8: on a fresh validator a conforming validate call
does return `conforms = true`, but the subsequent violation-list query
raises `AttributeError` instead of returning an empty sequence, because
the conforming branch never creates `violationDict`. -/
theorem conforming_violation_list_cex :
    validateCall st8 eng8 data8 =
      .ok ((true, .raw eng8.results_graph, "ok"), st8) ∧
    violationList st8 = .error .attributeError :=
  ⟨rfl, rfl⟩

/-- C8 as amended: for every conforming engine result, validate returns
`conforms = true` with the raw results unchanged (regardless of the
attachment setting) and leaves the violation dictionary untouched, so on a
fresh validator the subsequent violation-list query fails with an
attribute error rather than returning an empty sequence. -/
theorem conforming_call_leaves_violations (st : VState) (eng : EngineResult)
    (data : RGraph) (h : eng.conforms = true) :
    validateCall st eng data =
      .ok ((true, .raw eng.results_graph, eng.results_text), st) ∧
    (st.violationDict = none → violationList st = .error .attributeError) := by
  constructor
  · unfold validateCall
    rw [h]
    rfl
  · intro hn
    unfold violationList
    rw [hn]

/-- Witness for the amended C8 at a concrete conforming run. -/
theorem conforming_call_leaves_violations_w :
    validateCall st8 eng8 data8 =
      .ok ((true, .raw eng8.results_graph, "ok"), st8) ∧
    violationList st8 = .error .attributeError :=
  ⟨(conforming_call_leaves_violations st8 eng8 data8 rfl).1,
   (conforming_call_leaves_violations st8 eng8 data8 rfl).2 rfl⟩

/-- Non-conforming engine result used to refute C7: its single violation
carries a result path and a focus node but no `sh:value`, so the
attachment pass raises (rdflib `Graph.add` rejects the `None` object). -/
def engC7 : EngineResult :=
  ⟨false,
   ⟨[("sh", "http://www.w3.org/ns/shacl#")],
    [(Term.bnode 0, SH_result, Term.bnode 1),
     (Term.bnode 1, Term.iri "http://www.w3.org/ns/shacl#resultPath",
      Term.iri "urn:path"),
     (Term.bnode 1, Term.iri "http://www.w3.org/ns/shacl#focusNode",
      Term.iri "urn:focus")]⟩,
   "tc"⟩

/-- Fresh attachment-enabled validator state for C7. -/
def st7 : VState := ⟨true, ⟨[], []⟩, ⟨[], []⟩, [], none⟩

/-- Counterexample to C7: a non-conforming, attachment-enabled validate
call that does not return the union of enriched violation sub-graphs (or
anything at all): the attachment pass raises `AssertionError` on the
absent `sh:value` and validate propagates the exception. -/
theorem validate_enrichment_raise_cex :
    engC7.conforms = false ∧ st7.attachOffender = true ∧
    validateCall st7 engC7 ⟨[], []⟩ = .error .assertionError :=
  ⟨rfl, rfl, rfl⟩

/-- C7 as amended: validate returns the engine's triple unchanged when the
engine conforms or offender attachment was disabled at construction;
otherwise, when the offending-triple attachment pass succeeds, it returns
the same conforms flag and results text with the union of all enriched
violation sub-graphs in place of the raw results graph (and records the
new registry and dictionary); and when the attachment pass raises, the
exception propagates out of validate unchanged and no result is
returned. -/
theorem validate_branching (st : VState) (eng : EngineResult) (data : RGraph) :
    (eng.conforms = true ∨ st.attachOffender = false →
      validateCall st eng data =
        .ok ((eng.conforms, .raw eng.results_graph, eng.results_text), st)) ∧
    (∀ (d : NsDict) (vd : VDict), eng.conforms = false →
      st.attachOffender = true →
      attachOffendingTriples eng.results_graph data = .ok (d, vd) →
      validateCall st eng data =
        .ok ((eng.conforms,
              .enriched (vd.foldl (fun acc kv => vunion acc kv.2) emptyVG),
              eng.results_text),
             { st with namespaceDict := d, violationDict := some vd })) ∧
    (∀ e : PErr, eng.conforms = false → st.attachOffender = true →
      attachOffendingTriples eng.results_graph data = .error e →
      validateCall st eng data = .error e) := by
  refine ⟨?_, ?_, ?_⟩
  · rintro (h | h)
    · unfold validateCall
      rw [h]
      rfl
    · unfold validateCall
      rw [h]
      rw [if_pos (by simp)]
  · intro d vd hc ha hat
    unfold validateCall
    rw [hc, ha]
    rw [if_neg (by simp)]
    rw [hat]
  · intro e hc ha hat
    unfold validateCall
    rw [hc, ha]
    rw [if_neg (by simp)]
    rw [hat]

/-- Registry for the C7 witness run. -/
def d7 : NsDict := [("sh", "http://www.w3.org/ns/shacl#")]

/-- A conforming engine result for the C7 witness. -/
def engA7 : EngineResult := ⟨true, ⟨[], []⟩, "ta"⟩

/-- A non-conforming engine result for the C7 witness: one violation with
a result path, a focus node and a value. -/
def engB7 : EngineResult :=
  ⟨false,
   ⟨d7,
    [(Term.bnode 0, SH_result, Term.bnode 1),
     (Term.bnode 1, Term.iri "http://www.w3.org/ns/shacl#resultPath",
      Term.iri "urn:path"),
     (Term.bnode 1, Term.iri "http://www.w3.org/ns/shacl#focusNode",
      Term.iri "urn:focus"),
     (Term.bnode 1, Term.iri "http://www.w3.org/ns/shacl#value",
      Term.iri "urn:val")]⟩,
   "tb"⟩

/-- The enriched violation sub-graph of the C7 witness run. -/
def v7r : VGraph :=
  ⟨d7,
   [(Term.bnode 1, Term.iri "http://www.w3.org/ns/shacl#resultPath",
     Term.iri "urn:path"),
    (Term.bnode 1, Term.iri "http://www.w3.org/ns/shacl#focusNode",
     Term.iri "urn:focus"),
    (Term.bnode 1, Term.iri "http://www.w3.org/ns/shacl#value",
     Term.iri "urn:val")],
   [[(Term.iri "urn:focus", Term.iri "urn:path", some (Term.iri "urn:val"))]]⟩

/-- Witness for the amended C7: the conforming run returns the raw results
unchanged, the non-conforming run whose pass succeeds returns the packed
union of the enriched violations and the updated state, and a run whose
pass raises propagates the exception. -/
theorem validate_branching_w :
    validateCall st7 engA7 ⟨[], []⟩ =
      .ok ((true, .raw ⟨[], []⟩, "ta"), st7) ∧
    validateCall st7 engB7 ⟨[], []⟩ =
      .ok ((false, .enriched (vunion emptyVG v7r), "tb"),
           ⟨true, ⟨[], []⟩, ⟨[], []⟩, d7, some [(Term.bnode 1, v7r)]⟩) ∧
    validateCall st7 engC7 ⟨[], []⟩ = .error .assertionError :=
  ⟨(validate_branching st7 engA7 ⟨[], []⟩).1 (Or.inl rfl),
   (validate_branching st7 engB7 ⟨[], []⟩).2.1 d7 [(Term.bnode 1, v7r)]
     rfl rfl rfl,
   (validate_branching st7 engC7 ⟨[], []⟩).2.2 .assertionError rfl rfl rfl⟩

/-- Registry for the C5 failing input. -/
def ns5 : NsDict := [("sh", "http://www.w3.org/ns/shacl#")]

/-- C5 failing input: a violation with a result path and a focus node but
no `sh:value` (a minimum-count style violation, the spec's scenario A). -/
def v5 : VGraph :=
  ⟨[],
   [(Term.bnode 1, Term.iri "http://www.w3.org/ns/shacl#resultPath",
     Term.iri "urn:hasUnit"),
    (Term.bnode 1, Term.iri "http://www.w3.org/ns/shacl#focusNode",
     Term.iri "urn:Meter")],
   []⟩

/-- C5 evaluated at the failing input: when the optional `sh:value` object
is absent, the Resolver does not attach `(focusNode, resultPath, none)`
and return quietly as the claim says; line 206 executes
`g.add((focusNode, resultPath, None))` and rdflib's `Graph.add` asserts
that the object is a `Node`, so the call raises `AssertionError`. -/
theorem path_violation_value_absent_raises :
    triplesForOneViolation ns5 ⟨[], []⟩ v5 = .error .assertionError := rfl

/-- C6: for every violation without a result path whose source shape is
named `<namespace>#<P>DomainShape`, the Resolver recovers `P`, forms its
full IRI by concatenating the registry's `brick` namespace with `P`,
queries the data graph for all triples whose subject is the focus node
written as a prefixed name and whose predicate is that full IRI, and
attaches one offending-triple attachment `(focusNode, fullIRI, object)`
per matching triple. -/
theorem domain_shape_resolution (nsDict : NsDict) (data : RGraph) (v : VGraph)
    (shNs bsh sn P brickNs fns fname pfx : String) (ss fn : Term)
    (rest : List String) (res : List Triple)
    (hsh : lookupNs nsDict "sh" = some shNs)
    (hrp : objsFor v (shNs ++ "resultPath") = [])
    (hss : objsFor v (shNs ++ "sourceShape") = [ss])
    (hsplit : splitHash ss.pyStr = [bsh, sn])
    (hend : endsL sn "DomainShape" = true)
    (hP : pyDropRight sn (String.length "DomainShape") = P)
    (hbrick : lookupNs nsDict "brick" = some brickNs)
    (hfn : objsFor v (shNs ++ "focusNode") = [fn])
    (hfsplit : splitHash fn.pyStr = [fns, fname])
    (hpfx : (nsDict.filter fun kv => decide (kv.2 = fns ++ "#")).map Prod.fst =
      pfx :: rest)
    (hlkp : lookupNs nsDict pfx = some (fns ++ "#"))
    (hq : queryDataGraph data (some (Term.iri ((fns ++ "#") ++ fname)))
        (some (Term.iri (brickNs ++ P))) none = .ok res) :
    triplesForOneViolation nsDict data v =
      .ok { v with atts := v.atts ++ res.map (fun t => [(fn, Term.iri (brickNs ++ P), some t.2.2)]) } := by
  have h1 : violationPredicateObjOpt nsDict v "sh" "resultPath" = .ok none := by
    unfold violationPredicateObjOpt
    rw [hsh]
    dsimp only
    rw [hrp]
    rfl
  have h2 : violationPredicateObjMust nsDict v "sh" "sourceShape" = .ok ss := by
    unfold violationPredicateObjMust
    rw [hsh]
    dsimp only
    rw [hss]
  have h3 : violationPredicateObjMust nsDict v "sh" "focusNode" = .ok fn := by
    unfold violationPredicateObjMust
    rw [hsh]
    dsimp only
    rw [hfn]
  have key : noPathBranch nsDict data v =
      .ok { v with atts := v.atts ++ res.map (fun t => [(fn, Term.iri (brickNs ++ P), some t.2.2)]) } := by
    simp only [noPathBranch, h2, hsplit, hend, if_true, hP, hbrick, h3,
      hfsplit, hpfx, hlkp, Option.getD_some, hq]
  simp only [triplesForOneViolation, h1, key]

/-- Registry for the C6 witness: `sh`, `brick` and `ex`. -/
def ns6 : NsDict :=
  [("sh", "http://www.w3.org/ns/shacl#"),
   ("brick", "https://brickschema.org/schema/Brick#"),
   ("ex", "http://example.com#")]

/-- C6 witness violation: a `bsh:hasPointDomainShape` report on focus node
`ex:Meter1`, with no result path. -/
def v6 : VGraph :=
  ⟨ns6,
   [(Term.bnode 2, Term.iri "http://www.w3.org/ns/shacl#sourceShape",
     Term.iri "https://brickschema.org/schema/BrickShape#hasPointDomainShape"),
    (Term.bnode 2, Term.iri "http://www.w3.org/ns/shacl#focusNode",
     Term.iri "http://example.com#Meter1")],
   []⟩

/-- C6 witness data graph: `ex:Meter1 brick:hasPoint ex:Point1`. -/
def data6 : RGraph :=
  ⟨ns6,
   [(Term.iri "http://example.com#Meter1",
     Term.iri "https://brickschema.org/schema/Brick#hasPoint",
     Term.iri "http://example.com#Point1")]⟩

/-- Witness for C6, the spec's scenario B: resolution recovers
`brick:hasPoint` and attaches `(ex:Meter1, brick:hasPoint, ex:Point1)` as
the single offending triple. -/
theorem domain_shape_resolution_w :
    triplesForOneViolation ns6 data6 v6 =
      .ok { v6 with atts :=
        [[(Term.iri "http://example.com#Meter1",
           Term.iri "https://brickschema.org/schema/Brick#hasPoint",
           some (Term.iri "http://example.com#Point1"))]] } := by
  have h := domain_shape_resolution ns6 data6 v6
    "http://www.w3.org/ns/shacl#" "https://brickschema.org/schema/BrickShape"
    "hasPointDomainShape" "hasPoint" "https://brickschema.org/schema/Brick#"
    "http://example.com" "Meter1" "ex"
    (Term.iri "https://brickschema.org/schema/BrickShape#hasPointDomainShape")
    (Term.iri "http://example.com#Meter1") []
    [(Term.iri "http://example.com#Meter1",
      Term.iri "https://brickschema.org/schema/Brick#hasPoint",
      Term.iri "http://example.com#Point1")]
    rfl rfl rfl rfl rfl rfl rfl rfl rfl rfl rfl rfl
  exact h

/-- Registry for the C1 failing input. -/
def nsC1 : NsDict := [("sh", "http://www.w3.org/ns/shacl#")]

/-- C1 failing input: a violation with no `sh:resultPath` whose single
source shape is named `bsh#SomeShape`, i.e. its local name does not end in
`DomainShape`. -/
def vC1 : VGraph :=
  ⟨[],
   [(Term.bnode 0, Term.iri "http://www.w3.org/ns/shacl#sourceShape",
     Term.iri "http://example.org/bsh#SomeShape")],
   []⟩

/-- C1 evaluated at the failing input: instead of logging the violation as
unresolved and returning with zero attachments, the fall-through branch of
`__triplesForOneViolation` raises `NameError`, because the logging line
formats `g.serialize(...)` and the local variable `g` is only ever
assigned inside the two handled branches. -/
theorem unhandled_violation_raises :
    triplesForOneViolation nsC1 ⟨[], []⟩ vC1 = .error .nameError := rfl

/-- C9: the Report Renderer writes the fixed placeholder string for a
violation sub-graph with zero offending-triple attachments, instead of an
(empty) offending-triples section; a violation with at least one
attachment gets the labelled section listing each attached inner graph's
kept lines — for every serializer, registry and message. -/
theorem renderer_placeholder (ser : NsDict → VGraph → List String)
    (serInner : NsDict → List OTriple → List String)
    (nsDict : NsDict) (msg : Option String) (v : VGraph) :
    (v.atts = [] →
      appendViolation ser serInner nsDict msg v =
        appendGraphS msg (ser nsDict v) ++
        "Please add triple finder for the above violation!!!\n") ∧
    ∀ a as, v.atts = a :: as →
      appendViolation ser serInner nsDict msg v =
        appendGraphS msg (ser nsDict v) ++
        (if as = [] then "Offending triple:\n"
         else "Potential offending triples:\n") ++
        String.join ((a :: as).map (fun ig =>
          appendGraphS none (serInner nsDict ig))) := by
  constructor
  · intro h
    unfold appendViolation
    rw [h]
    rfl
  · intro a as h
    unfold appendViolation
    rw [h]
    cases as with
    | nil => rfl
    | cons b bs => rfl

/-- A violation sub-graph with one attachment, for the C9 witness. -/
def v9 : VGraph :=
  ⟨[], [], [[(Term.iri "urn:s", Term.iri "urn:p", none)]]⟩

/-- Witness for C9: with a concrete serializer, an attachment-free
violation renders the placeholder and a violation with one attachment
renders the labelled section. -/
theorem renderer_placeholder_w :
    appendViolation (fun _ _ => ["x y z"]) (fun _ _ => []) [] none
        ⟨[], [], []⟩ =
      appendGraphS none ["x y z"] ++
      "Please add triple finder for the above violation!!!\n" ∧
    appendViolation (fun _ _ => ["x y z"]) (fun _ _ => []) [] none v9 =
      appendGraphS none ["x y z"] ++ "Offending triple:\n" ++
      String.join [appendGraphS none ([] : List String)] :=
  ⟨(renderer_placeholder (fun _ _ => ["x y z"]) (fun _ _ => []) [] none
      ⟨[], [], []⟩).1 rfl,
   (renderer_placeholder (fun _ _ => ["x y z"]) (fun _ _ => []) [] none
      v9).2 [(Term.iri "urn:s", Term.iri "urn:p", none)] [] rfl⟩
